import Mathlib

/-!
Shallow embedding of the WASI filesystem state manager from
`src/lib/wasi/src/state.rs` (struct `WasiFs` and its methods), together with
theorems settling the frozen claims about it.

Modelling conventions:
* Machine integers (`u32` descriptor ids, `u64` rights, `usize` lengths) are
  `Nat`; arithmetic that can overflow in the source (`next_fd + 1` on `u32`,
  `name.len() as u32`) is taken modulo `2^32` explicitly.
* The generational arena `Arena<InodeVal>` is modelled as a size counter plus a
  total valuation `Nat → InodeVal`; the code never removes inodes, so
  generations are irrelevant and indexing a live inode is total.
* `HashMap` tables are modelled extensionally as `Nat → Option Fd` and
  `String → Option Nat` with pointwise insert.
* External effects (flushing stdout/stderr, flushing a backing file handle)
  are modelled by boolean oracles for their success and by an explicit list of
  I/O events, so "performs no I/O" is the absence of events.
* `unimplemented!()` / `.expect(..)` panics are modelled by distinguished
  `panic` outcomes.
-/

/-- Errno codes. Modelled from the spec: the numeric `__WASI_E*` constants live
in the syscalls types module, which is not among the provided sources; the
spec (§6) describes a closed errno enumeration, so the codes are symbolic. -/
inductive Errno where
  | EBADF
  | EINVAL
  | Eio
  | EACCES
  | EISDIR
  | EMLINK
  | ENOENT
  deriving DecidableEq

/-- Modelled from the spec: `__wasi_filestat_t` (spec §6 "Filestat struct") —
device id, inode id, file type tag, link count, size, three timestamps. -/
structure Filestat where
  st_dev : Nat
  st_ino : Nat
  st_filetype : Nat
  st_nlink : Nat
  st_size : Nat
  st_atim : Nat
  st_mtim : Nat
  st_ctim : Nat
  deriving DecidableEq

/-- Modelled from the spec: `__wasi_filestat_t::default()` — the all-zero
stat block used for preopened inodes in `WasiFs::new`. -/
def filestat_default : Filestat := ⟨0, 0, 0, 0, 0, 0, 0, 0⟩

/-- `pub const MAX_SYMLINKS: usize = 100;` (state.rs line 17). -/
def MAX_SYMLINKS : Nat := 100

/-- Modulus for `u32` arithmetic. -/
def U32_MOD : Nat := 4294967296

/-- Modelled from the spec: the "follow symlinks" bit of
`__wasi_lookupflags_t` (spec §4.4); the numeric constant is in the absent
types module, value `1` per the WASI ABI. -/
def WASI_LOOKUP_SYMLINK_FOLLOW : Nat := 1

/-- Modelled from the spec: the datasync bit of the rights bitmask
(spec §4.1); the numeric constant is in the absent types module, value `1`
per the WASI ABI. -/
def WASI_RIGHT_FD_DATASYNC : Nat := 1

/-- Modelled from the spec: WASI file type tags (spec §6). -/
def WASI_FILETYPE_UNKNOWN : Nat := 0

def WASI_FILETYPE_DIRECTORY : Nat := 3

def WASI_FILETYPE_REGULAR_FILE : Nat := 4

def WASI_FILETYPE_SYMBOLIC_LINK : Nat := 7

/-- Modelled from the spec: the "preopened directory" tag of the prestat
tagged union (spec §6). -/
def WASI_PREOPENTYPE_DIR : Nat := 0

/-- `enum WasiFile` wraps a backing stream (`zbox::File` or `fs::File`).
Only its flush capability is observable in the embedded operations, so the
handle is modelled by the success of its `flush`. -/
structure WasiFile where
  flushOk : Bool
  deriving DecidableEq

/-- `enum Kind` (state.rs lines 101–116). Directory entries are the lazily
filled name→inode map; a buffer is an in-memory byte vector. -/
inductive Kind where
  | File (handle : WasiFile)
  | Dir (handle : WasiFile) (entries : List (String × Nat))
  | Symlink (forwarded : Nat)
  | Buffer (buffer : List Nat)
  deriving DecidableEq

/-- True exactly on the `Symlink` variant of `Kind`. -/
def Kind.isSymlinkB : Kind → Bool
  | .Symlink _ => true
  | _ => false

/-- `struct InodeVal` (state.rs lines 93–98). -/
structure InodeVal where
  stat : Filestat
  is_preopened : Bool
  name : String
  kind : Kind
  deriving DecidableEq

/-- `struct Fd` (state.rs lines 119–125): rights, inheriting rights, flags,
cursor offset, inode reference. -/
structure Fd where
  rights : Nat
  rights_inheriting : Nat
  flags : Nat
  offset : Nat
  inode : Nat
  deriving DecidableEq

/-- `Arena<InodeVal>`: a size counter plus a total valuation. `insert`
appends at index `size` and returns that index, like
`generational_arena::Arena::insert` (no removal exists in this code, so slots
are never recycled and the generation component is dropped). -/
structure Arena where
  size : Nat
  val : Nat → InodeVal

/-- `Arena::insert`: store the record in the next slot, return its index. -/
def Arena.insert (a : Arena) (v : InodeVal) : Nat × Arena :=
  (a.size, ⟨a.size + 1, fun i => if i = a.size then v else a.val i⟩)

/-- `struct WasiFs` (state.rs lines 127–134). The zbox `repo` handle is an
external store touched only by commented-out code, so it is omitted. -/
structure WasiFs where
  name_map : String → Option Nat
  inodes : Arena
  fd_map : Nat → Option Fd
  next_fd : Nat
  inode_counter : Nat

/-- The bounded symlink-follow loop of `WasiFs::filestat_inode`
(state.rs lines 262–277): `while counter <= MAX_SYMLINKS` with `counter`
starting at 0 is embedded structurally with `fuel = MAX_SYMLINKS + 1 - counter`;
exhausted fuel is the `counter > MAX_SYMLINKS` exit returning `__WASI_EMLINK`. -/
def symlinkLoop (fs : WasiFs) : Nat → Nat → Except Errno Filestat
  | 0, _ => .error .EMLINK
  | fuel + 1, forwarded =>
    match (fs.inodes.val forwarded).kind with
    | .Symlink nf => symlinkLoop fs fuel nf
    | _ => .ok (fs.inodes.val forwarded).stat

/-- `WasiFs::filestat_inode` (state.rs lines 252–281): if the inode is a
symlink and the follow flag is set, run the bounded follow loop, otherwise
return the inode's own stat. -/
def filestat_inode (fs : WasiFs) (inode : Nat) (flags : Nat) :
    Except Errno Filestat :=
  match (fs.inodes.val inode).kind with
  | .Symlink forwarded =>
    if flags &&& WASI_LOOKUP_SYMLINK_FOLLOW ≠ 0 then
      symlinkLoop fs (MAX_SYMLINKS + 1) forwarded
    else .ok (fs.inodes.val inode).stat
  | _ => .ok (fs.inodes.val inode).stat

/-- Instrumentation for the claim about hop counts: the number of symlink
dereferences the follow loop performs, with the same fuel discipline as
`symlinkLoop`. -/
def followHops (fs : WasiFs) : Nat → Nat → Nat
  | 0, _ => 0
  | fuel + 1, forwarded =>
    match (fs.inodes.val forwarded).kind with
    | .Symlink nf => followHops fs fuel nf + 1
    | _ => 0

/-- `WasiFs::get_inode` (state.rs lines 192–249): an occupied cache entry is
returned; the vacant branch `return None` (the backing-store lookup is
commented out), so the map is read but never modified. -/
def get_inode (fs : WasiFs) (path : String) : Option Nat × WasiFs :=
  (fs.name_map path, fs)

/-- `WasiFs::filestat_path` (state.rs lines 284–294): the `preopened_fd`
argument is only interpolated into a `warn!` log line; a miss in the cache is
`__WASI_EINVAL` via `.ok_or(__WASI_EINVAL)`. -/
def filestat_path (fs : WasiFs) (preopened_fd : Nat) (flags : Nat)
    (path : String) : Except Errno Filestat × WasiFs :=
  match get_inode fs path with
  | (none, fs1) => (.error .EINVAL, fs1)
  | (some inode, fs1) => (filestat_inode fs1 inode flags, fs1)

/-- `WasiFs::filestat_fd` (state.rs lines 296–300). -/
def filestat_fd (fs : WasiFs) (fd : Nat) : Except Errno Filestat :=
  match fs.fd_map fd with
  | none => .error .EBADF
  | some f => .ok (fs.inodes.val f.inode).stat

/-- `__wasi_fdstat_t`. Modelled from the spec (§6 "Fdstat struct"): file
type, flags, rights, inheriting rights. -/
structure Fdstat where
  fs_filetype : Nat
  fs_flags : Nat
  fs_rights_base : Nat
  fs_rights_inheriting : Nat
  deriving DecidableEq

/-- `WasiFs::fdstat` (state.rs lines 302–318). Note the source fills
`fs_rights_inheriting` with `fd.rights` (flagged there with a TODO), not with
`fd.rights_inheriting`; the `dbg!` wrapper only prints. -/
def fdstat (fs : WasiFs) (fd : Nat) : Except Errno Fdstat :=
  match fs.fd_map fd with
  | none => .error .EBADF
  | some f =>
    .ok
      { fs_filetype :=
          match (fs.inodes.val f.inode).kind with
          | .File _ => WASI_FILETYPE_REGULAR_FILE
          | .Dir _ _ => WASI_FILETYPE_DIRECTORY
          | .Symlink _ => WASI_FILETYPE_SYMBOLIC_LINK
          | .Buffer _ => WASI_FILETYPE_UNKNOWN
        fs_flags := f.flags
        fs_rights_base := f.rights
        fs_rights_inheriting := f.rights }

/-- `__wasi_prestat_t`. Modelled from the spec (§6 "Prestat struct"): only
the preopened-directory tag is populated, carrying the name's byte length
(`name.len() as u32`, hence the `% 2^32`). -/
structure Prestat where
  pr_type : Nat
  pr_name_len : Nat
  deriving DecidableEq

/-- `WasiFs::prestat_fd` (state.rs lines 320–337). -/
def prestat_fd (fs : WasiFs) (fd : Nat) : Except Errno Prestat :=
  match fs.fd_map fd with
  | none => .error .EBADF
  | some f =>
    if (fs.inodes.val f.inode).is_preopened then
      .ok ⟨WASI_PREOPENTYPE_DIR, (fs.inodes.val f.inode).name.utf8ByteSize % U32_MOD⟩
    else .error .EBADF

/-- Result of `flush`: success, an errno, or the `unimplemented!()` panic hit
on symlink inodes. -/
inductive FlushOutcome where
  | ok
  | err (e : Errno)
  | panicked
  deriving DecidableEq

/-- External I/O actions `flush` can perform, for stating "performs no I/O". -/
inductive IoEvent where
  | stdoutFlush
  | stderrFlush
  | handleFlush (inode : Nat)
  deriving DecidableEq

/-- `WasiFs::flush` (state.rs lines 339–362). `so` / `se` are oracles for the
success of `io::stdout().flush()` / `io::stderr().flush()`; a failing stream
or handle flush is mapped to `__WASI_EIO`. The returned event list records
which external flushes were invoked. -/
def flush (so se : Bool) (fs : WasiFs) (fd : Nat) :
    FlushOutcome × WasiFs × List IoEvent :=
  if fd = 0 then (.ok, fs, [])
  else if fd = 1 then ((if so then .ok else .err .Eio), fs, [.stdoutFlush])
  else if fd = 2 then ((if se then .ok else .err .Eio), fs, [.stderrFlush])
  else
    match fs.fd_map fd with
    | none => (.err .EBADF, fs, [])
    | some f =>
      if f.rights &&& WASI_RIGHT_FD_DATASYNC = 0 then (.err .EACCES, fs, [])
      else
        match (fs.inodes.val f.inode).kind with
        | .File h => ((if h.flushOk then .ok else .err .Eio), fs, [.handleFlush f.inode])
        | .Dir _ _ => (.err .EISDIR, fs, [])
        | .Symlink _ => (.panicked, fs, [])
        | .Buffer _ => (.ok, fs, [])

/-- `WasiFs::create_fd` (state.rs lines 364–384): hand out `next_fd`, bump it
(`u32` increment, hence the wrap modulo `2^32`), insert the descriptor. -/
def create_fd (fs : WasiFs) (rights rights_inheriting flags inode : Nat) :
    Except Errno Nat × WasiFs :=
  let idx := fs.next_fd
  (.ok idx,
   { fs with
     next_fd := (idx + 1) % U32_MOD
     fd_map := fun k =>
       if k = idx then some ⟨rights, rights_inheriting, flags, 0, inode⟩
       else fs.fd_map k })

/-- Result of `WasiFs::new`: the instance, the `Err(String)` for a
non-directory preopen, or the `.expect(..)` panic on an unopenable path. -/
inductive InitResult where
  | ok (fs : WasiFs)
  | err (msg : String)
  | panicked
  deriving Inhabited

/-- True exactly on the `err` variant of `InitResult`. -/
def InitResult.isErr : InitResult → Bool
  | .err _ => true
  | _ => false

/-- `let default_rights = 0x1FFFFFFF;` in `WasiFs::new`. -/
def DEFAULT_RIGHTS : Nat := 0x1FFFFFFF

/-- The placeholder record inhabiting unused arena slots. -/
def emptyInode : InodeVal := ⟨filestat_default, false, "", .Buffer []⟩

/-- The state `WasiFs::new` builds before the preopen loop (state.rs lines
146–154): empty tables, `next_fd = 3`, `inode_counter = 1000`. -/
def initFs : WasiFs :=
  ⟨fun _ => none, ⟨0, fun _ => emptyInode⟩, fun _ => none, 3, 1000⟩

/-- The preopen loop of `WasiFs::new` (state.rs lines 155–186). `host` maps a
path to `none` when `fs::File::open` fails (the `.expect` panic), to
`some true` for a directory and `some false` for any other file, which is the
hard error. A directory becomes a preopened `Dir` inode plus one descriptor
with `default_rights` for both rights fields. -/
def preopenAll (host : String → Option Bool) : List String → WasiFs → InitResult
  | [], fs => .ok fs
  | file :: rest, fs =>
    match host file with
    | none => .panicked
    | some false =>
      .err ("WASI only supports pre-opened directories right now; found \"" ++
        file ++ "\"")
    | some true =>
      let ins := fs.inodes.insert ⟨filestat_default, true, file, .Dir ⟨true⟩ []⟩
      let fs1 : WasiFs := { fs with inodes := ins.2 }
      let fs2 := (create_fd fs1 DEFAULT_RIGHTS DEFAULT_RIGHTS 0 ins.1).2
      preopenAll host rest fs2

/-- `WasiFs::new` (state.rs lines 137–189); the in-memory zbox repo open is
assumed to succeed (it is an external store, unused afterwards). -/
def WasiFs.new (host : String → Option Bool) (preopened_files : List String) :
    InitResult :=
  preopenAll host preopened_files initFs

/-- N consecutive `create_fd` calls, one per argument quadruple
`(rights, rights_inheriting, flags, inode)`; returns the list of results in
call order together with the final state. -/
def runCreates : List (Nat × Nat × Nat × Nat) → WasiFs → List (Except Errno Nat) × WasiFs
  | [], fs => ([], fs)
  | (r, ri, fl, ino) :: rest, fs =>
    let c := create_fd fs r ri fl ino
    let t := runCreates rest c.2
    (c.1 :: t.1, t.2)

/-! ## Example states and auxiliary definitions used by the theorems -/

deriving instance DecidableEq for Except

/-- State with one descriptor (id 3) whose base rights (1) differ from its
stored inheriting rights (2), over a regular-file inode. -/
def fsC2 : WasiFs :=
  { initFs with
    inodes := ⟨1, fun _ => ⟨filestat_default, false, "f", .File ⟨true⟩⟩⟩
    fd_map := fun k => if k = 3 then some ⟨1, 2, 0, 0, 0⟩ else none }

/-- State with descriptor 3 over a `File` inode, rights bitmask `0` (no
datasync bit). -/
def fsC4 : WasiFs :=
  { initFs with
    inodes := ⟨1, fun _ => ⟨filestat_default, false, "f", .File ⟨true⟩⟩⟩
    fd_map := fun k => if k = 3 then some ⟨0, 0, 0, 0, 0⟩ else none }

/-- The file-type mapping the spec states for `fdstat`: File→regular,
Dir→directory, Symlink→symbolic link, Buffer→unknown. -/
def filetypeOfKind : Kind → Nat
  | .File _ => WASI_FILETYPE_REGULAR_FILE
  | .Dir _ _ => WASI_FILETYPE_DIRECTORY
  | .Symlink _ => WASI_FILETYPE_SYMBOLIC_LINK
  | .Buffer _ => WASI_FILETYPE_UNKNOWN

/-- State with descriptor 3 over a symlink inode. -/
def fsC8 : WasiFs :=
  { initFs with
    inodes := ⟨1, fun _ => ⟨filestat_default, false, "s", .Symlink 0⟩⟩
    fd_map := fun k => if k = 3 then some ⟨0, 0, 0, 0, 0⟩ else none }

/-- Host view for the spec's scenario: `"/sandbox"` is an openable directory. -/
def hostSandbox : String → Option Bool :=
  fun s => if s = "/sandbox" then some true else none

/-- Unwrap a successful initialization (placeholder otherwise). -/
def InitResult.getFs : InitResult → WasiFs
  | .ok fs => fs
  | _ => initFs

/-- The filesystem produced by initializing with the single preopened
directory `"/sandbox"`. -/
def fsSandbox : WasiFs := (WasiFs.new hostSandbox ["/sandbox"]).getFs

/-- A name of `2^32` bytes, at which the `as u32` cast in `prestat_fd`
truncates. -/
def bigName : String := ⟨List.replicate U32_MOD 'a'⟩

/-- State with one preopened inode of the given name, reachable through
descriptor 3 (parameterized so facts about it hold for any name). -/
def fsNamed (nm : String) : WasiFs :=
  { initFs with
    inodes := ⟨1, fun _ => ⟨filestat_default, true, nm, .Dir ⟨true⟩ []⟩⟩
    fd_map := fun k => if k = 3 then some ⟨0, 0, 0, 0, 0⟩ else none }

/-- State with a preopened inode whose name is `2^32` bytes long, reachable
through descriptor 3. -/
def fsBigName : WasiFs := fsNamed bigName

/-- Host view with one openable regular (non-directory) file. -/
def hostC7 : String → Option Bool :=
  fun s => if s = "notes.txt" then some false else none

/-- `ChainTo fs a n b`: starting at inode `a`, following exactly `n` symlink
targets reaches `b`; every node strictly before `b` on the path (including
`a` when `n ≥ 1`) is a symlink. The endpoint `b` itself is unconstrained. -/
inductive ChainTo (fs : WasiFs) : Nat → Nat → Nat → Prop where
  | refl (a : Nat) : ChainTo fs a 0 a
  | step {a b c : Nat} {n : Nat} (h : (fs.inodes.val a).kind = .Symlink b)
      (tail : ChainTo fs b n c) : ChainTo fs a (n + 1) c

/-- Two symlinks then a regular file: inode 0 → 1 → 2. -/
def fsChainW : WasiFs :=
  { initFs with
    inodes := ⟨3, fun i =>
      if i = 0 then ⟨filestat_default, false, "", .Symlink 1⟩
      else if i = 1 then ⟨filestat_default, false, "", .Symlink 2⟩
      else ⟨filestat_default, false, "f", .File ⟨true⟩⟩⟩ }

/-- A ramp of 101 symlinks: inodes 0–100 are symlinks, each to the next;
inode 101 is a regular file. -/
def fsRamp : WasiFs :=
  { initFs with
    inodes := ⟨102, fun i =>
      if i < 101 then ⟨filestat_default, false, "", .Symlink (i + 1)⟩
      else ⟨filestat_default, false, "f", .File ⟨true⟩⟩⟩ }

/-- `2^32 - 2` identical argument quadruples. -/
def argsWrap : List (Nat × Nat × Nat × Nat) :=
  List.replicate (U32_MOD - 2) (0, 0, 0, 0)

/-- The reserved stdio ids are absent from the descriptor table. -/
def stdioFree (fs : WasiFs) : Prop :=
  fs.fd_map 0 = none ∧ fs.fd_map 1 = none ∧ fs.fd_map 2 = none

/-! ## Claim C9 -/

/-- Claim C9: `filestat_path` does not depend on its `preopened_fd` argument —
two calls differing only in that argument return the same result and leave the
state in the same condition (the argument only feeds a log line). -/
theorem filestat_path_ignores_preopened_fd (fs : WasiFs)
    (pfd1 pfd2 flags : Nat) (path : String) :
    filestat_path fs pfd1 flags path = filestat_path fs pfd2 flags path := rfl

/-! ## Claim C3 -/

/-- Claim C3 counterexample: for an uncached path, `filestat_path` fails with
`EINVAL` (invalid argument), not with the "no such entry" code `ENOENT` the
claim names. -/
theorem filestat_path_uncached_cex :
    initFs.name_map "missing" = none ∧
    (filestat_path initFs 0 0 "missing").1 = .error Errno.EINVAL ∧
    Errno.EINVAL ≠ Errno.ENOENT :=
  ⟨rfl, rfl, by decide⟩

/-- Claim C3 (amended): for every path absent from the name cache,
`filestat_path` fails with the invalid-argument error `EINVAL` for any
`preopened_fd` and `flags` arguments, and leaves the filesystem state
unchanged. -/
theorem filestat_path_uncached (fs : WasiFs) (pfd flags : Nat) (path : String)
    (h : fs.name_map path = none) :
    filestat_path fs pfd flags path = (.error .EINVAL, fs) := by
  simp [filestat_path, get_inode, h]

/-- Witness for the amended C3 theorem at a concrete state and path. -/
theorem filestat_path_uncached_w :
    filestat_path initFs 0 0 "missing" = (.error .EINVAL, initFs) :=
  filestat_path_uncached initFs 0 0 "missing" rfl

/-! ## Claim C2 -/

/-- Claim C2 (code bug evaluated): the descriptor stores
`rights_inheriting = 2`, but `fdstat` fills the inheriting-rights field with
the base rights `1` (the source assigns `fd.rights` there, flagged with a
TODO), so the returned field differs from the stored bitmask. -/
theorem fdstat_inheriting_bug :
    (fsC2.fd_map 3).map Fd.rights_inheriting = some 2 ∧
    fdstat fsC2 3 = .ok ⟨WASI_FILETYPE_REGULAR_FILE, 0, 1, 1⟩ ∧
    (1 : Nat) ≠ 2 := by
  refine ⟨rfl, rfl, by decide⟩

/-! ## Claim C4 -/

/-- Claim C4: flushing descriptor 1 or 2 goes straight to the corresponding
standard stream — for every filesystem state (hence regardless of any
descriptor's rights) the result depends only on the stream, the state is
unchanged, and no rights check happens; while for every id `≥ 3` present in
the table whose rights lack the datasync bit, `flush` fails with
permission-denied, performs no I/O (empty event list), and leaves the state
unchanged. -/
theorem flush_rights_policy (so se : Bool) (fs : WasiFs) (fd : Nat) (f : Fd) :
    flush so se fs 1 = ((if so then .ok else .err .Eio), fs, [.stdoutFlush]) ∧
    flush so se fs 2 = ((if se then .ok else .err .Eio), fs, [.stderrFlush]) ∧
    (3 ≤ fd → fs.fd_map fd = some f →
      f.rights &&& WASI_RIGHT_FD_DATASYNC = 0 →
      flush so se fs fd = (.err .EACCES, fs, [])) := by
  refine ⟨rfl, rfl, fun h3 hf hr => ?_⟩
  have h0 : fd ≠ 0 := by omega
  have h1 : fd ≠ 1 := by omega
  have h2 : fd ≠ 2 := by omega
  simp [flush, h0, h1, h2, hf, hr]

/-- Witness for C4: a descriptor lacking the datasync right is refused with
permission-denied and the underlying handle's flush is never invoked. -/
theorem flush_rights_policy_w :
    flush true true fsC4 3 = (.err .EACCES, fsC4, []) :=
  (flush_rights_policy true true fsC4 3 ⟨0, 0, 0, 0, 0⟩).2.2 (by decide)
    (by decide) (by decide)

/-! ## Claim C8 -/

/-- Claim C8: for every descriptor present in the table, the file-type field
returned by `fdstat` is determined by the `Kind` of the descriptor's inode
under the fixed mapping `filetypeOfKind`. -/
theorem fdstat_filetype (fs : WasiFs) (fd : Nat) (f : Fd)
    (h : fs.fd_map fd = some f) :
    (fdstat fs fd).map Fdstat.fs_filetype =
      .ok (filetypeOfKind (fs.inodes.val f.inode).kind) := by
  simp only [fdstat, h]
  cases (fs.inodes.val f.inode).kind <;> rfl

/-- Witness for C8 at a concrete symlink descriptor. -/
theorem fdstat_filetype_w :
    (fdstat fsC8 3).map Fdstat.fs_filetype = .ok WASI_FILETYPE_SYMBOLIC_LINK :=
  (fdstat_filetype fsC8 3 ⟨0, 0, 0, 0, 0⟩ (by decide)).trans (by decide)

/-! ## Claim C5 -/

/-- Claim C5 (amended): `prestat_fd` succeeds — returning preopen type
directory and the inode's name byte length reduced modulo `2^32` (the length
is cast to a 32-bit field) — exactly when the id is present in the table and
its inode is marked preopened; otherwise it fails with bad-descriptor. -/
theorem prestat_fd_spec (fs : WasiFs) (fd : Nat) :
    (fs.fd_map fd = none → prestat_fd fs fd = .error .EBADF) ∧
    (∀ f, fs.fd_map fd = some f →
      ((fs.inodes.val f.inode).is_preopened = true →
        prestat_fd fs fd = .ok ⟨WASI_PREOPENTYPE_DIR,
          (fs.inodes.val f.inode).name.utf8ByteSize % U32_MOD⟩) ∧
      ((fs.inodes.val f.inode).is_preopened = false →
        prestat_fd fs fd = .error .EBADF)) := by
  refine ⟨fun h => by simp [prestat_fd, h], fun f h => ⟨fun hp => ?_, fun hp => ?_⟩⟩ <;>
    simp [prestat_fd, h, hp]

/-- Witness for C5, the spec's scenario: after preopening `"/sandbox"`,
`prestat_fd 3` returns preopen type directory with name length 8. -/
theorem prestat_fd_spec_w :
    prestat_fd fsSandbox 3 = .ok ⟨WASI_PREOPENTYPE_DIR, 8⟩ :=
  (((prestat_fd_spec fsSandbox 3).2 ⟨DEFAULT_RIGHTS, DEFAULT_RIGHTS, 0, 0, 0⟩
    (by decide)).1 (by decide)).trans (by decide)

/-- Byte size of `n` copies of an ASCII character. -/
theorem utf8_go_replicate (n : Nat) :
    String.utf8ByteSize.go (List.replicate n 'a') = n := by
  induction n with
  | zero => rfl
  | succ k ih =>
    have h : String.utf8ByteSize.go (List.replicate (k + 1) 'a') =
        String.utf8ByteSize.go (List.replicate k 'a') + 'a'.utf8Size := rfl
    rw [h, ih, show ('a'.utf8Size) = 1 from rfl]

/-- `prestat_fd` on `fsNamed nm` reports the name length modulo `2^32`. -/
theorem prestat_fd_fsNamed (nm : String) :
    prestat_fd (fsNamed nm) 3 =
      .ok ⟨WASI_PREOPENTYPE_DIR, nm.utf8ByteSize % U32_MOD⟩ := rfl

/-- Claim C5 counterexample: descriptor 3 is present and its inode is marked
preopened with a name of `2^32` bytes, yet `prestat_fd` reports name length
`0` — not the name's byte length — because `name.len()` is cast to `u32`. -/
theorem prestat_fd_trunc_cex :
    fsBigName.fd_map 3 = some ⟨0, 0, 0, 0, 0⟩ ∧
    (fsBigName.inodes.val 0).is_preopened = true ∧
    (fsBigName.inodes.val 0).name = bigName ∧
    bigName.utf8ByteSize = U32_MOD ∧
    prestat_fd fsBigName 3 = .ok ⟨WASI_PREOPENTYPE_DIR, 0⟩ ∧
    (0 : Nat) ≠ U32_MOD := by
  have hlen : bigName.utf8ByteSize = U32_MOD := utf8_go_replicate U32_MOD
  have e2 : bigName.utf8ByteSize % U32_MOD = 0 := by
    rw [hlen]; exact Nat.mod_self _
  refine ⟨rfl, rfl, rfl, hlen, ?_, by decide⟩
  exact (prestat_fd_fsNamed bigName).trans (by rw [e2])

/-! ## Claim C7 -/

/-- Claim C7: if every path in the preopened list is openable and some path
refers to a non-directory file, `WasiFs::new` fails as a whole with an error
and no filesystem instance is created. -/
theorem new_nondir_preopen_fails (host : String → Option Bool)
    (files : List String)
    (hopen : ∀ f ∈ files, (host f).isSome)
    (hfile : ∃ f ∈ files, host f = some false) :
    (WasiFs.new host files).isErr = true := by
  have main : ∀ (l : List String) (fs : WasiFs),
      (∀ f ∈ l, (host f).isSome) → (∃ f ∈ l, host f = some false) →
      (preopenAll host l fs).isErr = true := by
    intro l
    induction l with
    | nil => intro fs _ hex; simp at hex
    | cons a rest ih =>
      intro fs hop hex
      have ha : (host a).isSome := hop a (List.mem_cons_self a rest)
      cases hha : host a with
      | none => rw [hha] at ha; simp at ha
      | some b =>
        cases b with
        | false => simp [preopenAll, hha, InitResult.isErr]
        | true =>
          simp only [preopenAll, hha]
          apply ih
          · intro f hf; exact hop f (List.mem_cons_of_mem a hf)
          · rcases hex with ⟨f, hf, hval⟩
            rcases List.mem_cons.mp hf with h | h
            · subst h; rw [hha] at hval; simp at hval
            · exact ⟨f, h, hval⟩
  exact main files initFs hopen hfile

/-- Witness for C7: preopening the regular file `"notes.txt"` makes
initialization return an error. -/
theorem new_nondir_preopen_fails_w :
    (WasiFs.new hostC7 ["notes.txt"]).isErr = true :=
  new_nondir_preopen_fails hostC7 ["notes.txt"]
    (by intro f hf; simp at hf; subst hf; decide)
    ⟨"notes.txt", by simp, by decide⟩

/-! ## Claim C1 -/

/-- If a chain of `m` symlink steps from `f` ends at a non-symlink inode and
the loop has more than `m` units of fuel, the loop returns that inode's
stat. -/
theorem symlinkLoop_ok (fs : WasiFs) {m f T : Nat}
    (hc : ChainTo fs f m T) (hT : (fs.inodes.val T).kind.isSymlinkB = false) :
    ∀ fuel, m + 1 ≤ fuel → symlinkLoop fs fuel f = .ok (fs.inodes.val T).stat := by
  induction hc with
  | refl a =>
    intro fuel hfuel
    match fuel, hfuel with
    | fuel + 1, _ =>
      cases hk : (fs.inodes.val a).kind with
      | Symlink nf => rw [hk] at hT; simp [Kind.isSymlinkB] at hT
      | File h => simp [symlinkLoop, hk]
      | Dir h e => simp [symlinkLoop, hk]
      | Buffer b => simp [symlinkLoop, hk]
  | step h tail ih =>
    rename_i a b c n
    intro fuel hfuel
    match fuel, hfuel with
    | fuel + 1, hfuel =>
      have hstep : symlinkLoop fs (fuel + 1) a = symlinkLoop fs fuel b := by
        simp [symlinkLoop, h]
      rw [hstep]
      exact ih hT fuel (by omega)

/-- If there is a chain of at least `fuel` symlink steps out of `f`, the loop
exhausts its fuel and fails with the too-many-links error. -/
theorem symlinkLoop_fail (fs : WasiFs) :
    ∀ (fuel : Nat) {m f g : Nat}, ChainTo fs f m g → fuel ≤ m →
      symlinkLoop fs fuel f = .error .EMLINK := by
  intro fuel
  induction fuel with
  | zero => intro m f g _ _; rfl
  | succ k ih =>
    intro m f g hc hle
    cases hc with
    | refl a => omega
    | step h tail =>
      rename_i b n
      have hstep : symlinkLoop fs (k + 1) f = symlinkLoop fs k b := by
        simp [symlinkLoop, h]
      rw [hstep]
      exact ih tail (by omega)

/-- A self-cycle supports chains of every length. -/
theorem chain_self_cycle (fs : WasiFs) {a : Nat}
    (h : (fs.inodes.val a).kind = .Symlink a) (n : Nat) : ChainTo fs a n a := by
  induction n with
  | zero => exact .refl a
  | succ k ih => exact .step h ih

/-- On a self-cycle the follow loop spends all its fuel, one hop per unit. -/
theorem followHops_self_cycle (fs : WasiFs) {a : Nat}
    (h : (fs.inodes.val a).kind = .Symlink a) :
    ∀ fuel, followHops fs fuel a = fuel := by
  intro fuel
  induction fuel with
  | zero => rfl
  | succ k ih => simp [followHops, h, ih]

/-- Claim C1 (amended): resolving a starting symlink inode with the
follow-symlinks flag always terminates (the embedded loop is structurally
bounded), and:
* if the first 102 nodes of the chain are all symlinks — any chain needing
  more than 101 dereferences, including every cycle — the result is the
  too-many-links error;
* if a chain of `L ≤ 101` symlink dereferences (that is, at most 101
  symlinks counting the starting inode) reaches a non-symlink inode, the
  result is that inode's stat — so chains of exactly 101 symlinks still
  succeed, and only chains of 102 or more fail;
* a self-cycle `Symlink(target = A)` at `A` fails with too-many-links after
  exactly 101 hops of the follow loop. -/
theorem filestat_inode_follow (fs : WasiFs) (A T L f0 : Nat)
    (hA : (fs.inodes.val A).kind = .Symlink f0) :
    ((∃ g, ChainTo fs A 102 g) →
      filestat_inode fs A WASI_LOOKUP_SYMLINK_FOLLOW = .error .EMLINK) ∧
    (ChainTo fs A L T → (fs.inodes.val T).kind.isSymlinkB = false → L ≤ 101 →
      filestat_inode fs A WASI_LOOKUP_SYMLINK_FOLLOW = .ok (fs.inodes.val T).stat) ∧
    ((fs.inodes.val A).kind = .Symlink A →
      filestat_inode fs A WASI_LOOKUP_SYMLINK_FOLLOW = .error .EMLINK ∧
      followHops fs (MAX_SYMLINKS + 1) A = 101) := by
  have hunfold : filestat_inode fs A WASI_LOOKUP_SYMLINK_FOLLOW =
      symlinkLoop fs (MAX_SYMLINKS + 1) f0 := by
    simp [filestat_inode, hA, WASI_LOOKUP_SYMLINK_FOLLOW]
  refine ⟨?_, ?_, ?_⟩
  · rintro ⟨g, hg⟩
    cases hg with
    | step h tail =>
      rw [hA] at h
      cases h
      rw [hunfold]
      exact symlinkLoop_fail fs (MAX_SYMLINKS + 1) tail (by simp [MAX_SYMLINKS])
  · intro hc hT hL
    cases hc with
    | refl a => rw [hA] at hT; simp [Kind.isSymlinkB] at hT
    | step h tail =>
      rw [hA] at h
      cases h
      rw [hunfold]
      exact symlinkLoop_ok fs tail hT (MAX_SYMLINKS + 1)
        (by simp [MAX_SYMLINKS]; omega)
  · intro hself
    have hf0 : f0 = A := by rw [hA] at hself; cases hself; rfl
    subst hf0
    constructor
    · rw [hunfold]
      exact symlinkLoop_fail fs (MAX_SYMLINKS + 1)
        (chain_self_cycle fs hself (MAX_SYMLINKS + 1)) (by omega)
    · exact followHops_self_cycle fs hself (MAX_SYMLINKS + 1)

/-- Witness for C1: a two-symlink chain resolves to the final file's stat. -/
theorem filestat_inode_follow_w :
    filestat_inode fsChainW 0 WASI_LOOKUP_SYMLINK_FOLLOW =
      .ok (fsChainW.inodes.val 2).stat :=
  (filestat_inode_follow fsChainW 0 2 2 1 rfl).2.1
    (.step rfl (.step rfl (.refl 2))) (by decide) (by omega)

/-- Every suffix of the ramp is a chain ending at inode 101. -/
theorem fsRamp_chain : ∀ n i, i + n = 101 → ChainTo fsRamp i n 101 := by
  intro n
  induction n with
  | zero =>
    intro i hi
    have h : i = 101 := by omega
    subst h
    exact .refl 101
  | succ k ih =>
    intro i hi
    have hlt : i < 101 := by omega
    have hk : (fsRamp.inodes.val i).kind = .Symlink (i + 1) := by
      simp [fsRamp, hlt]
    exact .step hk (ih (i + 1) (by omega))

/-- Claim C1 counterexample: a chain of 101 symlinks (inode 0 through inode
100, strictly more than 100) followed by a regular file is resolved
successfully to the file's stat — it does not return the too-many-links
error the claim requires for chains of length greater than 100. -/
theorem filestat_inode_101_cex :
    ChainTo fsRamp 0 101 101 ∧
    (fsRamp.inodes.val 101).kind.isSymlinkB = false ∧
    filestat_inode fsRamp 0 WASI_LOOKUP_SYMLINK_FOLLOW =
      .ok (fsRamp.inodes.val 101).stat ∧
    filestat_inode fsRamp 0 WASI_LOOKUP_SYMLINK_FOLLOW ≠
      .error Errno.EMLINK := by
  refine ⟨fsRamp_chain 101 0 rfl, by decide, by decide, by decide⟩

/-! ## Claims C6 and C10: descriptor allocation -/

/-- Without wrap-around, consecutive `create_fd` calls return the ids
`next_fd, next_fd+1, …` in order and advance the counter by one per call. -/
theorem runCreates_ids (args : List (Nat × Nat × Nat × Nat)) :
    ∀ fs : WasiFs, fs.next_fd + args.length < U32_MOD →
      (runCreates args fs).1 = (List.range' fs.next_fd args.length).map Except.ok ∧
      (runCreates args fs).2.next_fd = fs.next_fd + args.length := by
  induction args with
  | nil => intro fs _; exact ⟨rfl, rfl⟩
  | cons a rest ih =>
    intro fs hlt
    obtain ⟨r, ri, fl, ino⟩ := a
    have hnf : (fs.next_fd + 1) % U32_MOD = fs.next_fd + 1 :=
      Nat.mod_eq_of_lt (by simp at hlt; omega)
    have hih := ih (create_fd fs r ri fl ino).2
      (by simp [create_fd, hnf]; simp at hlt; omega)
    rw [show (create_fd fs r ri fl ino).2.next_fd = fs.next_fd + 1 from hnf] at hih
    refine ⟨?_, ?_⟩
    · show Except.ok fs.next_fd :: (runCreates rest (create_fd fs r ri fl ino).2).1 = _
      rw [hih.1]
      simp [List.range']
    · show (runCreates rest (create_fd fs r ri fl ino).2).2.next_fd = _
      rw [hih.2]
      simp
      omega

/-- With wrap-around accounted for, the `j`-th of consecutive `create_fd`
calls returns id `(next_fd + j) % 2^32`, and the counter ends at
`(next_fd + N) % 2^32`. -/
theorem runCreates_ids_wrap (args : List (Nat × Nat × Nat × Nat)) :
    ∀ fs : WasiFs, fs.next_fd < U32_MOD →
      (runCreates args fs).1 =
        (List.range args.length).map
          (fun j => Except.ok ((fs.next_fd + j) % U32_MOD)) ∧
      (runCreates args fs).2.next_fd = (fs.next_fd + args.length) % U32_MOD := by
  induction args with
  | nil =>
    intro fs hlt
    exact ⟨rfl, by simp [runCreates, Nat.mod_eq_of_lt hlt]⟩
  | cons a rest ih =>
    intro fs hlt
    obtain ⟨r, ri, fl, ino⟩ := a
    have hM : 0 < U32_MOD := by decide
    have hih := ih (create_fd fs r ri fl ino).2 (Nat.mod_lt _ hM)
    have hstep : (create_fd fs r ri fl ino).2.next_fd =
        (fs.next_fd + 1) % U32_MOD := rfl
    rw [hstep] at hih
    have hfun : (fun j => (Except.ok (((fs.next_fd + 1) % U32_MOD + j) % U32_MOD) :
        Except Errno Nat)) =
        (fun j => Except.ok ((fs.next_fd + (j + 1)) % U32_MOD)) := by
      funext j
      rw [Nat.mod_add_mod, show fs.next_fd + 1 + j = fs.next_fd + (j + 1) from by
        omega]
    refine ⟨?_, ?_⟩
    · show Except.ok fs.next_fd :: (runCreates rest (create_fd fs r ri fl ino).2).1 = _
      rw [hih.1, hfun]
      simp only [List.length_cons]
      rw [List.range_succ_eq_map, List.map_cons, List.map_map]
      rw [Nat.mod_eq_of_lt (by omega : fs.next_fd + 0 < U32_MOD)]
      rfl
    · show (runCreates rest (create_fd fs r ri fl ino).2).2.next_fd = _
      rw [hih.2, Nat.mod_add_mod, show fs.next_fd + 1 + rest.length =
        fs.next_fd + (rest.length + 1) from by omega]
      rfl

/-- An occupied descriptor-table key stays occupied across further
`create_fd` calls. -/
theorem runCreates_keeps (args : List (Nat × Nat × Nat × Nat)) :
    ∀ (fs : WasiFs) (k : Nat), (fs.fd_map k).isSome →
      ((runCreates args fs).2.fd_map k).isSome := by
  induction args with
  | nil => intro fs k h; exact h
  | cons a rest ih =>
    intro fs k h
    obtain ⟨r, ri, fl, ino⟩ := a
    apply ih
    rw [show (create_fd fs r ri fl ino).2.fd_map k =
      (if k = fs.next_fd then some ⟨r, ri, fl, 0, ino⟩ else fs.fd_map k) from rfl]
    split
    · rfl
    · exact h

/-- Each of the keys `(next_fd + j) % 2^32`, `j < N`, is occupied after `N`
consecutive `create_fd` calls. -/
theorem runCreates_inserts (args : List (Nat × Nat × Nat × Nat)) :
    ∀ (fs : WasiFs), fs.next_fd < U32_MOD → ∀ j < args.length,
      ((runCreates args fs).2.fd_map ((fs.next_fd + j) % U32_MOD)).isSome := by
  induction args with
  | nil => intro fs _ j hj; simp at hj
  | cons a rest ih =>
    intro fs hlt j hj
    obtain ⟨r, ri, fl, ino⟩ := a
    cases j with
    | zero =>
      rw [Nat.mod_eq_of_lt (by omega : fs.next_fd + 0 < U32_MOD)]
      show ((runCreates rest (create_fd fs r ri fl ino).2).2.fd_map
        (fs.next_fd + 0)).isSome
      apply runCreates_keeps
      rw [show (create_fd fs r ri fl ino).2.fd_map (fs.next_fd + 0) =
        (if fs.next_fd + 0 = fs.next_fd then some ⟨r, ri, fl, 0, ino⟩
          else fs.fd_map (fs.next_fd + 0)) from rfl]
      simp
    | succ i =>
      have hM : 0 < U32_MOD := by decide
      have hih := ih (create_fd fs r ri fl ino).2 (Nat.mod_lt _ hM) i
        (by simp at hj; omega)
      have hkey : ((create_fd fs r ri fl ino).2.next_fd + i) % U32_MOD =
          (fs.next_fd + (i + 1)) % U32_MOD := by
        show ((fs.next_fd + 1) % U32_MOD + i) % U32_MOD = _
        rw [Nat.mod_add_mod, show fs.next_fd + 1 + i = fs.next_fd + (i + 1) from
          by omega]
      rw [hkey] at hih
      exact hih

/-- Claim C6 (amended): on a freshly initialized instance with no preopens
(`next_fd = 3`), N consecutive `create_fd` calls — for any N with
`N + 3 < 2^32`, since the 32-bit id counter wraps after reaching
`2^32 - 1` — return exactly the pairwise-distinct ids `3, 4, …, N + 2`,
with any argument values. -/
theorem create_fd_monotonic (host : String → Option Bool)
    (args : List (Nat × Nat × Nat × Nat)) (h : args.length + 3 < U32_MOD) :
    WasiFs.new host [] = .ok initFs ∧
    (runCreates args initFs).1 = (List.range' 3 args.length).map Except.ok ∧
    (runCreates args initFs).1.Nodup := by
  have h1 := runCreates_ids args initFs (by
    show 3 + args.length < U32_MOD
    omega)
  refine ⟨rfl, h1.1, ?_⟩
  rw [h1.1]
  exact (List.nodup_range' 3 args.length).map
    (fun a b hab => by injection hab)

/-- Witness for C6: two allocations on the fresh instance yield ids 3, 4. -/
theorem create_fd_monotonic_w :
    (runCreates [(0, 0, 0, 0), (0, 0, 0, 0)] initFs).1 =
      (List.range' 3 2).map Except.ok :=
  (create_fd_monotonic (fun _ => none) [(0, 0, 0, 0), (0, 0, 0, 0)]
    (by decide)).2.1

/-- Claim C6 counterexample: with `N = 2^32 - 2` consecutive calls on the
fresh instance, the returned ids are not `3, …, N + 2` — the 32-bit counter
wraps, so the last call returns id 0 where the claim requires `2^32`. -/
theorem create_fd_wrap_cex :
    (runCreates argsWrap initFs).1 ≠
      (List.range' 3 (U32_MOD - 2)).map Except.ok := by
  intro heq
  have hM : U32_MOD = 4294967296 := rfl
  have hlen : argsWrap.length = U32_MOD - 2 := List.length_replicate _ _
  have h1 := (runCreates_ids_wrap argsWrap initFs (by decide)).1
  rw [hlen] at h1
  rw [h1] at heq
  have hj : U32_MOD - 3 < U32_MOD - 2 := by omega
  have hL := congrArg (fun l => l[U32_MOD - 3]?) heq
  simp only [List.getElem?_map, List.getElem?_range hj,
    List.getElem?_range' 3 1 hj, Option.map_some'] at hL
  have hkey : (initFs.next_fd + (U32_MOD - 3)) % U32_MOD = 0 := by
    show (3 + (U32_MOD - 3)) % U32_MOD = 0
    rw [show 3 + (U32_MOD - 3) = U32_MOD from by omega, Nat.mod_self]
  rw [hkey] at hL
  simp only [Option.some.injEq, Except.ok.injEq] at hL
  omega

/-- Claim C10 (amended): the fresh instance has no table entries at the
reserved ids 0, 1, 2; `create_fd` preserves this as long as the 32-bit id
counter has not wrapped (counter at least 3 and not overflowing on this
call); in any such state `filestat_fd`, `fdstat` and `prestat_fd` on ids
0, 1, 2 fail with bad-descriptor, while `flush` special-cases ids 1 and 2
and succeeds on them (when the host stream flush succeeds) without touching
the table. -/
theorem reserved_fds_spec :
    (stdioFree initFs ∧ 3 ≤ initFs.next_fd) ∧
    (∀ fs r ri fl ino, stdioFree fs → 3 ≤ fs.next_fd →
      fs.next_fd + 1 < U32_MOD →
      stdioFree (create_fd fs r ri fl ino).2 ∧
      3 ≤ (create_fd fs r ri fl ino).2.next_fd) ∧
    (∀ fs k, k < 3 → stdioFree fs →
      filestat_fd fs k = .error .EBADF ∧ fdstat fs k = .error .EBADF ∧
      prestat_fd fs k = .error .EBADF) ∧
    (∀ fs, flush true true fs 1 = (.ok, fs, [.stdoutFlush]) ∧
      flush true true fs 2 = (.ok, fs, [.stderrFlush])) := by
  refine ⟨⟨⟨rfl, rfl, rfl⟩, by decide⟩, ?_, ?_, fun fs => ⟨rfl, rfl⟩⟩
  · intro fs r ri fl ino hfree h3 hov
    obtain ⟨h0, h1, h2⟩ := hfree
    have hmap : ∀ k, k < 3 →
        (create_fd fs r ri fl ino).2.fd_map k = fs.fd_map k := by
      intro k hk
      show (if k = fs.next_fd then _ else fs.fd_map k) = fs.fd_map k
      rw [if_neg (by omega)]
    refine ⟨⟨?_, ?_, ?_⟩, ?_⟩
    · rw [hmap 0 (by omega)]; exact h0
    · rw [hmap 1 (by omega)]; exact h1
    · rw [hmap 2 (by omega)]; exact h2
    · show 3 ≤ (fs.next_fd + 1) % U32_MOD
      rw [Nat.mod_eq_of_lt hov]
      omega
  · intro fs k hk hfree
    obtain ⟨h0, h1, h2⟩ := hfree
    interval_cases k <;>
      exact ⟨by simp [filestat_fd, h0, h1, h2], by simp [fdstat, h0, h1, h2],
        by simp [prestat_fd, h0, h1, h2]⟩

/-- Witness for C10: on the fresh instance the three table-backed queries
reject ids 0. -/
theorem reserved_fds_spec_w :
    filestat_fd initFs 0 = .error .EBADF ∧ fdstat initFs 0 = .error .EBADF ∧
    prestat_fd initFs 0 = .error .EBADF :=
  reserved_fds_spec.2.2.1 initFs 0 (by omega) ⟨rfl, rfl, rfl⟩

/-- An occupied table key makes `filestat_fd` succeed rather than return
bad-descriptor. -/
theorem filestat_fd_of_isSome (fs : WasiFs) (k : Nat)
    (h : (fs.fd_map k).isSome = true) :
    filestat_fd fs k ≠ .error Errno.EBADF := by
  cases hfd : fs.fd_map k with
  | none => rw [hfd] at h; simp at h
  | some f => simp [filestat_fd, hfd]

/-- Claim C10 counterexample: after `2^32 - 2` allocations the wrapped
32-bit counter has placed an entry at reserved id 0, and `filestat_fd 0`
no longer fails with bad-descriptor. -/
theorem reserved_fds_wrap_cex :
    ((runCreates argsWrap initFs).2.fd_map 0).isSome = true ∧
    filestat_fd (runCreates argsWrap initFs).2 0 ≠ .error Errno.EBADF := by
  have hM : U32_MOD = 4294967296 := rfl
  have hlen : argsWrap.length = U32_MOD - 2 := List.length_replicate _ _
  have hkey : (initFs.next_fd + (U32_MOD - 3)) % U32_MOD = 0 := by
    show (3 + (U32_MOD - 3)) % U32_MOD = 0
    rw [show 3 + (U32_MOD - 3) = U32_MOD from by omega, Nat.mod_self]
  have hins := runCreates_inserts argsWrap initFs (by decide) (U32_MOD - 3)
    (by rw [hlen]; omega)
  rw [hkey] at hins
  exact ⟨hins, filestat_fd_of_isSome _ 0 hins⟩
